import Mathlib

/-!
Verification of the NFL coaching-network repository.

Two source files carry the behaviour under study and are embedded below:

* `Python Scrapers/convert to network format.py` — the Edge Builder.
  Roster rows are filtered to an allowed role-category set, a hierarchy
  level is assigned per role, and two edge relations are built per
  (team, year) group by nested loops over the group: hierarchical edges
  under a supervision rule, and unconditional co-staff edges.

* `Network Vis/network_app.py` — the Graph Store and the Query/Filter
  Engine.  Edge/node column names are negotiated, a directed graph is
  built from the edge list, a node set is resolved from a selection
  (individual node with depth, or community with an external-inclusion
  flag, with a full-graph fallback), and the edge set is filtered by
  node membership, then a year facet, then a team facet; finally the
  visible node set is recomputed from the filtered edges.

Missing CSV cells surface in pandas as `NaN`; fields that can be missing
are embedded as `Option` values, and the pandas scalar comparison
semantics (`NaN` is unequal to everything, including itself) is made
explicit in `naEq` and `levelLt`.
-/

/-- One roster row of the scraped staff file
(`Name, Team, Year, role_category, role_subcategory, position_group,
side_of_ball`).  Fields that may be missing in the CSV are `Option`s. -/
structure RosterRow where
  name : Option String
  team : String
  year : Int
  role_category : Option String
  role_subcategory : Option String
  position_group : Option String
  side_of_ball : Option String
deriving DecidableEq, Repr

/-- pandas scalar equality on possibly-missing values: a `NaN` cell
compares unequal to everything, including another `NaN`. -/
def naEq : Option String → Option String → Bool
  | some a, some b => a == b
  | _, _ => false

/-- `allowed_roles` from `convert to network format.py`, line 7. -/
def allowed_roles : List String :=
  ["Head Coach", "Coordinator", "Position Coach - Defense",
   "Position Coach - Offense", "Specialist Coach"]

/-- The row-level predicate of the filter on line 8
(`df["role_category"].isin(allowed_roles)`); a missing category is not
in the list, hence the row is dropped. -/
def roleAllowed (r : RosterRow) : Bool :=
  match r.role_category with
  | some c => allowed_roles.contains c
  | none => false

/-- Line 8: keep only the allowed role categories. -/
def filterAllowed (rows : List RosterRow) : List RosterRow :=
  rows.filter roleAllowed

/-- `hierarchy_map` from lines 11-17 of the conversion script. -/
def hierarchy_map : String → Option Nat
  | "Head Coach" => some 1
  | "Coordinator" => some 2
  | "Position Coach - Defense" => some 3
  | "Position Coach - Offense" => some 3
  | "Specialist Coach" => some 4
  | _ => none

/-- Line 18: the `hierarchy_level` column,
`df["role_category"].map(hierarchy_map)`. -/
def rowLevel (r : RosterRow) : Option Nat :=
  r.role_category.bind hierarchy_map

/-- pandas `<` on possibly-missing numbers: any comparison against
`NaN` is false. -/
def levelLt : Option Nat → Option Nat → Bool
  | some a, some b => decide (a < b)
  | _, _ => false

/-- The emission condition of the hierarchical loop (lines 33-34):
`src.hierarchy_level < tgt.hierarchy_level` and
(`src.role_category == "Head Coach"` or
`src.side_of_ball == tgt.side_of_ball`). -/
def hierCond (src tgt : RosterRow) : Bool :=
  levelLt (rowLevel src) (rowLevel tgt) &&
    (src.role_category == some "Head Coach" ||
      naEq src.side_of_ball tgt.side_of_ball)

/-- The hierarchical nested loop over one (team, year) group
(lines 31-46): every ordered pair of group rows is visited and one edge
record is appended exactly when `hierCond` holds.  The appended record
is a projection of `(src, tgt, team, year)`, so the relation is
represented by the emitted row pairs. -/
def hierPairs (g : List RosterRow) : List (RosterRow × RosterRow) :=
  g.flatMap fun src =>
    g.flatMap fun tgt => if hierCond src tgt then [(src, tgt)] else []

/-- The co-staff nested loop over one (team, year) group (lines 53-68):
one edge record is appended for every ordered pair, unconditionally. -/
def costaffPairs (g : List RosterRow) : List (RosterRow × RosterRow) :=
  g.flatMap fun src => g.map fun tgt => (src, tgt)

/-- The distinct (Team, Year) keys of `df.groupby(["Team", "Year"])`. -/
def groupKeys (rows : List RosterRow) : List (String × Int) :=
  (rows.map fun r => (r.team, r.year)).eraseDups

/-- The rows of one (team, year) group. -/
def groupOf (rows : List RosterRow) (k : String × Int) : List RosterRow :=
  rows.filter fun r => r.team == k.1 && r.year == k.2

/-- The whole Edge Builder pipeline: filter to allowed roles, group by
(team, year), and run both nested loops per group. -/
def build_edges (rows : List RosterRow) :
    List (RosterRow × RosterRow) × List (RosterRow × RosterRow) :=
  let rows' := filterAllowed rows
  ((groupKeys rows').flatMap fun k => hierPairs (groupOf rows' k),
   (groupKeys rows').flatMap fun k => costaffPairs (groupOf rows' k))

/-- One row of the edge table consumed by `network_app.py`: the
endpoint columns (after name negotiation), and the `year` and `team`
facet columns. -/
structure EdgeRow where
  src : Nat
  tgt : Nat
  year : Int
  team : String
deriving DecidableEq, Repr

/-- The node set of `G_full = nx.from_pandas_edgelist(edges_df, ...)`:
exactly the endpoints occurring in the edge list
(`nx.set_node_attributes` does not add nodes). -/
def graphNodes (es : List EdgeRow) : Finset Nat :=
  (es.map EdgeRow.src).toFinset ∪ (es.map EdgeRow.tgt).toFinset

/-- `G_full.successors(u)`: targets of edges whose source is `u`. -/
def successors (es : List EdgeRow) (u : Nat) : Finset Nat :=
  ((es.filter fun e => e.src == u).map EdgeRow.tgt).toFinset

/-- `G_full.predecessors(u)`: sources of edges whose target is `u`. -/
def predecessors (es : List EdgeRow) (u : Nat) : Finset Nat :=
  ((es.filter fun e => e.tgt == u).map EdgeRow.src).toFinset

/-- Individual-node depth expansion, `network_app.py` lines 174-188:
depth 1 is the focal node plus its successors and predecessors; the
other branch (depth 2) adds the successors and predecessors of every
first-hop node. -/
def connectedNodes (es : List EdgeRow) (focal : Nat) (depth : Nat) : Finset Nat :=
  if depth = 1 then
    {focal} ∪ successors es focal ∪ predecessors es focal
  else
    let firstHop := successors es focal ∪ predecessors es focal
    ({focal} ∪ firstHop) ∪
      firstHop.biUnion fun v => successors es v ∪ predecessors es v

/-- Community mode, lines 190-206: the members themselves, and, when
`include_external` is set, the successors and predecessors of every
member that is present in the graph. -/
def communityView (es : List EdgeRow) (members : List Nat)
    (includeExternal : Bool) : Finset Nat :=
  let base := members.toFinset
  if includeExternal then
    base ∪ base.biUnion fun v =>
      if v ∈ graphNodes es then successors es v ∪ predecessors es v else ∅
  else base

/-- The selection handed to the engine: an individual node with a
depth, or a community member list with the external-inclusion flag. -/
inductive Mode where
  | individual (focal : Nat) (depth : Nat)
  | community (members : List Nat) (includeExternal : Bool)
deriving DecidableEq, Repr

/-- Lines 172-212: resolve the selected node set, with the fallback
branch returning every graph node; the warning (`st.warning`) is shown
only on the individual-node path.  The result is
(`connected_nodes`, warning flag). -/
def resolveNodes (es : List EdgeRow) (m : Mode) : Finset Nat × Bool :=
  match m with
  | .individual focal depth =>
      if focal ∈ graphNodes es then (connectedNodes es focal depth, false)
      else (graphNodes es, true)
  | .community members includeExternal =>
      if members ≠ [] then (communityView es members includeExternal, false)
      else (graphNodes es, false)

/-- Lines 216-219: keep edges whose two endpoints are both in the
resolved node set. -/
def filterByNodes (es : List EdgeRow) (ns : Finset Nat) : List EdgeRow :=
  es.filter fun e => decide (e.src ∈ ns) && decide (e.tgt ∈ ns)

/-- Lines 231-232: `if selected_years: ... isin(selected_years)`.  An
empty (falsy) selection leaves the edges untouched. -/
def filterByYears (es : List EdgeRow) (selYears : List Int) : List EdgeRow :=
  if selYears.isEmpty then es
  else es.filter fun e => selYears.contains e.year

/-- Lines 243-244: the team facet, same guard shape as the year facet. -/
def filterByTeams (es : List EdgeRow) (selTeams : List String) : List EdgeRow :=
  if selTeams.isEmpty then es
  else es.filter fun e => selTeams.contains e.team

/-- The facet pipeline in source order: node restriction, then year,
then team. -/
def filteredEdges (es : List EdgeRow) (ns : Finset Nat)
    (selYears : List Int) (selTeams : List String) : List EdgeRow :=
  filterByTeams (filterByYears (filterByNodes es ns) selYears) selTeams

/-- Lines 250-251: the visible node set is recomputed as the endpoints
of the filtered edge list. -/
def nodesInEdges (es : List EdgeRow) : Finset Nat :=
  (es.map EdgeRow.src).toFinset ∪ (es.map EdgeRow.tgt).toFinset

/-- The whole query: resolve the selection, filter the edges, recompute
the node set; returns (node set, edge set, warning flag). -/
def resolve_view (es : List EdgeRow) (m : Mode) (selYears : List Int)
    (selTeams : List String) : Finset Nat × List EdgeRow × Bool :=
  let r := resolveNodes es m
  let fe := filteredEdges es r.1 selYears selTeams
  (nodesInEdges fe, fe, r.2)

/-- Lines 62-69: edge endpoint column negotiation.  `from`/`to` is
tried first, then `source`/`target`; `none` is the `st.error` +
`st.stop` path. -/
def detectEdgeCols (cols : List String) : Option (String × String) :=
  if cols.contains "from" && cols.contains "to" then some ("from", "to")
  else if cols.contains "source" && cols.contains "target" then
    some ("source", "target")
  else none

/-- Lines 72-80: node identity/label column negotiation.  `coach_id`
is tried first (label `coach` when present), then `id` (label `label`
when present); `none` is the fatal path. -/
def detectNodeCols (cols : List String) : Option (String × String) :=
  if cols.contains "coach_id" then
    some ("coach_id", if cols.contains "coach" then "coach" else "coach_id")
  else if cols.contains "id" then
    some ("id", if cols.contains "label" then "label" else "id")
  else none

/-- The load sequence: edge columns are negotiated first, then node
columns; either failure aborts the load with no partial result. -/
def loadStore (edgeCols nodeCols : List String) :
    Option ((String × String) × (String × String)) :=
  match detectEdgeCols edgeCols with
  | none => none
  | some ec =>
    match detectNodeCols nodeCols with
    | none => none
    | some nc => some (ec, nc)

/-- Synthetic graph of the spec test property: edges A→B and C→A with
A = 1, B = 2, C = 3. -/
def exGraph1 : List EdgeRow :=
  [⟨1, 2, 2000, "KC"⟩, ⟨3, 1, 2001, "KC"⟩]

/-- `exGraph1` with the extra edge B→D (D = 4). -/
def exGraph2 : List EdgeRow :=
  exGraph1 ++ [⟨2, 4, 2002, "SF"⟩]

/-- A view for the year-facet counterexample: focal node 1 with the
edges 1→2 and 1→3 in year 2000, and a neighbour-to-neighbour edge
2→3 in year 2001. -/
def exGraph9 : List EdgeRow :=
  [⟨1, 2, 2000, "KC"⟩, ⟨1, 3, 2000, "KC"⟩, ⟨2, 3, 2001, "KC"⟩]

/-- A well-formed Head Coach roster row. -/
def hcRow : RosterRow :=
  ⟨some "Andy Reid", "KC", 2020, some "Head Coach", none, none,
   some "Offense"⟩

/-- A well-formed offensive Coordinator roster row. -/
def ocRow : RosterRow :=
  ⟨some "Matt Nagy", "KC", 2020, some "Coordinator", none, none,
   some "Offense"⟩

/-- A Coordinator row whose `side_of_ball` cell is missing. -/
def badRow : RosterRow :=
  ⟨some "Mystery Coach", "KC", 2020, some "Coordinator", none, none, none⟩

/-- A two-row roster: a Head Coach and a Coordinator with a missing
`side_of_ball` field, one team-season. -/
def exRows : List RosterRow := [hcRow, badRow]

/-- A two-row roster of well-formed records, one team-season. -/
def exRowsOk : List RosterRow := [hcRow, ocRow]

/-! ### Helper lemmas -/

theorem mem_hierPairs {g : List RosterRow} {src tgt : RosterRow} :
    (src, tgt) ∈ hierPairs g ↔ src ∈ g ∧ tgt ∈ g ∧ hierCond src tgt = true := by
  simp only [hierPairs, List.mem_flatMap]
  constructor
  · rintro ⟨s, hs, t, ht, hmem⟩
    by_cases hc : hierCond s t = true
    · rw [if_pos hc, List.mem_singleton, Prod.mk.injEq] at hmem
      obtain ⟨rfl, rfl⟩ := hmem
      exact ⟨hs, ht, hc⟩
    · rw [if_neg hc] at hmem
      exact absurd hmem (List.not_mem_nil _)
  · rintro ⟨hs, ht, hc⟩
    exact ⟨src, hs, tgt, ht, by rw [if_pos hc]; exact List.mem_singleton_self _⟩

theorem costaffPairs_eq_product (g : List RosterRow) :
    costaffPairs g = g.product g := rfl

theorem mem_costaffPairs {g : List RosterRow} {p : RosterRow × RosterRow} :
    p ∈ costaffPairs g ↔ p.1 ∈ g ∧ p.2 ∈ g := by
  obtain ⟨a, b⟩ := p
  rw [costaffPairs_eq_product]
  exact List.mem_product

theorem length_costaffPairs (g : List RosterRow) :
    (costaffPairs g).length = g.length * g.length := by
  rw [costaffPairs_eq_product]
  exact List.length_product g g

theorem mem_groupOf {rows : List RosterRow} {k : String × Int} {r : RosterRow} :
    r ∈ groupOf rows k ↔ r ∈ rows ∧ r.team = k.1 ∧ r.year = k.2 := by
  simp [groupOf, List.mem_filter]

theorem mem_filterAllowed {rows : List RosterRow} {r : RosterRow} :
    r ∈ filterAllowed rows ↔ r ∈ rows ∧ roleAllowed r = true := by
  simp [filterAllowed, List.mem_filter]

theorem rowLevel_of_allowed {r : RosterRow} (h : roleAllowed r = true) :
    ∃ l, rowLevel r = some l := by
  unfold roleAllowed at h
  unfold rowLevel
  cases hc : r.role_category with
  | none => rw [hc] at h; simp at h
  | some c =>
    rw [hc] at h
    have hall : ∀ s ∈ allowed_roles, (hierarchy_map s).isSome = true := by decide
    have hcs := hall c (by simpa using h)
    exact ⟨(hierarchy_map c).get hcs, by
      rw [Option.some_bind]; exact (Option.some_get hcs).symm⟩

theorem mem_successors {es : List EdgeRow} {u v : Nat} :
    v ∈ successors es u ↔ ∃ e ∈ es, e.src = u ∧ e.tgt = v := by
  simp [successors, List.mem_filter, and_assoc]

theorem mem_predecessors {es : List EdgeRow} {u v : Nat} :
    v ∈ predecessors es u ↔ ∃ e ∈ es, e.tgt = u ∧ e.src = v := by
  simp [predecessors, List.mem_filter, and_assoc]

theorem mem_graphNodes {es : List EdgeRow} {v : Nat} :
    v ∈ graphNodes es ↔ ∃ e ∈ es, e.src = v ∨ e.tgt = v := by
  simp only [graphNodes, Finset.mem_union, List.mem_toFinset, List.mem_map]
  constructor
  · rintro (⟨e, he, rfl⟩ | ⟨e, he, rfl⟩)
    · exact ⟨e, he, Or.inl rfl⟩
    · exact ⟨e, he, Or.inr rfl⟩
  · rintro ⟨e, he, rfl | rfl⟩
    · exact Or.inl ⟨e, he, rfl⟩
    · exact Or.inr ⟨e, he, rfl⟩

theorem nodesInEdges_eq_graphNodes (es : List EdgeRow) :
    nodesInEdges es = graphNodes es := rfl

theorem mem_filterByNodes {es : List EdgeRow} {ns : Finset Nat} {e : EdgeRow} :
    e ∈ filterByNodes es ns ↔ e ∈ es ∧ e.src ∈ ns ∧ e.tgt ∈ ns := by
  simp [filterByNodes, List.mem_filter]

theorem mem_filterByYears {es : List EdgeRow} {selYears : List Int} {e : EdgeRow} :
    e ∈ filterByYears es selYears ↔ e ∈ es ∧ (selYears ≠ [] → e.year ∈ selYears) := by
  unfold filterByYears
  by_cases h : selYears.isEmpty
  · rw [if_pos h]
    rw [List.isEmpty_iff] at h
    subst h
    simp
  · rw [if_neg h]
    rw [List.isEmpty_iff] at h
    simp [List.mem_filter, h]

theorem mem_filterByTeams {es : List EdgeRow} {selTeams : List String} {e : EdgeRow} :
    e ∈ filterByTeams es selTeams ↔ e ∈ es ∧ (selTeams ≠ [] → e.team ∈ selTeams) := by
  unfold filterByTeams
  by_cases h : selTeams.isEmpty
  · rw [if_pos h]
    rw [List.isEmpty_iff] at h
    subst h
    simp
  · rw [if_neg h]
    rw [List.isEmpty_iff] at h
    simp [List.mem_filter, h]

theorem mem_filteredEdges {es : List EdgeRow} {ns : Finset Nat}
    {selYears : List Int} {selTeams : List String} {e : EdgeRow} :
    e ∈ filteredEdges es ns selYears selTeams ↔
      e ∈ es ∧ e.src ∈ ns ∧ e.tgt ∈ ns ∧
        (selYears ≠ [] → e.year ∈ selYears) ∧
        (selTeams ≠ [] → e.team ∈ selTeams) := by
  unfold filteredEdges
  rw [mem_filterByTeams, mem_filterByYears, mem_filterByNodes]
  tauto

theorem resolve_view_fst (es : List EdgeRow) (m : Mode) (selYears : List Int)
    (selTeams : List String) :
    (resolve_view es m selYears selTeams).1 =
      nodesInEdges (filteredEdges es (resolveNodes es m).1 selYears selTeams) := rfl

theorem resolve_view_edges (es : List EdgeRow) (m : Mode) (selYears : List Int)
    (selTeams : List String) :
    (resolve_view es m selYears selTeams).2.1 =
      filteredEdges es (resolveNodes es m).1 selYears selTeams := rfl

/-! ### Claim theorems -/

/-- Claim C1: within one team-season group of the role-filtered roster,
for every ordered pair of distinct records src and tgt (both with an
allowed role category, side-of-ball fields present), a hierarchical
edge src→tgt is emitted iff the hierarchy level of src (Head Coach 1,
Coordinator 2, Position Coach 3, Specialist Coach 4, per
`hierarchy_map`) is strictly below that of tgt and (src is the Head
Coach or the two sides of ball are equal); no edge is emitted for equal
levels, and no edge is emitted in the reverse direction. -/
theorem hier_edge_iff (rows : List RosterRow) (k : String × Int)
    (src tgt : RosterRow)
    (hsrc : src ∈ groupOf (filterAllowed rows) k)
    (htgt : tgt ∈ groupOf (filterAllowed rows) k)
    (_hne : src ≠ tgt)
    (hs : src.side_of_ball.isSome = true)
    (ht : tgt.side_of_ball.isSome = true) :
    ((src, tgt) ∈ hierPairs (groupOf (filterAllowed rows) k) ↔
      ((∃ ls lt, rowLevel src = some ls ∧ rowLevel tgt = some lt ∧ ls < lt) ∧
        (src.role_category = some "Head Coach" ∨
          src.side_of_ball = tgt.side_of_ball))) ∧
    (rowLevel src = rowLevel tgt →
      (src, tgt) ∉ hierPairs (groupOf (filterAllowed rows) k)) ∧
    ((src, tgt) ∈ hierPairs (groupOf (filterAllowed rows) k) →
      (tgt, src) ∉ hierPairs (groupOf (filterAllowed rows) k)) := by
  have hras : roleAllowed src = true :=
    (mem_filterAllowed.mp (mem_groupOf.mp hsrc).1).2
  have hrat : roleAllowed tgt = true :=
    (mem_filterAllowed.mp (mem_groupOf.mp htgt).1).2
  obtain ⟨ls, hls⟩ := rowLevel_of_allowed hras
  obtain ⟨lt, hlt⟩ := rowLevel_of_allowed hrat
  obtain ⟨a, ha⟩ := Option.isSome_iff_exists.mp hs
  obtain ⟨b, hb⟩ := Option.isSome_iff_exists.mp ht
  have hcond : hierCond src tgt = true ↔
      (ls < lt ∧ (src.role_category = some "Head Coach" ∨
        src.side_of_ball = tgt.side_of_ball)) := by
    simp only [hierCond, hls, hlt, ha, hb, levelLt, naEq, Bool.and_eq_true,
      Bool.or_eq_true, beq_iff_eq, decide_eq_true_eq, Option.some.injEq]
  have hrev : hierCond tgt src = true → lt < ls := by
    intro h
    have h2 := (Bool.and_eq_true _ _).mp h
    rw [hlt, hls] at h2
    simpa [levelLt] using h2.1
  refine ⟨?_, ?_, ?_⟩
  · rw [mem_hierPairs]
    constructor
    · rintro ⟨-, -, hc⟩
      obtain ⟨h1, h2⟩ := hcond.mp hc
      exact ⟨⟨ls, lt, hls, hlt, h1⟩, h2⟩
    · rintro ⟨⟨ls2, lt2, hls2, hlt2, hlt12⟩, hside⟩
      rw [hls] at hls2
      rw [hlt] at hlt2
      have e1 : ls = ls2 := Option.some.inj hls2
      have e2 : lt = lt2 := Option.some.inj hlt2
      subst e1
      subst e2
      exact ⟨hsrc, htgt, hcond.mpr ⟨hlt12, hside⟩⟩
  · intro heq hmem
    rw [mem_hierPairs] at hmem
    obtain ⟨h1, -⟩ := hcond.mp hmem.2.2
    rw [hls, hlt] at heq
    have := Option.some.inj heq
    omega
  · intro hmem hmem2
    rw [mem_hierPairs] at hmem
    rw [mem_hierPairs] at hmem2
    obtain ⟨h1, -⟩ := hcond.mp hmem.2.2
    have h2 := hrev hmem2.2.2
    omega

/-- Witness for `hier_edge_iff`: a Head Coach and an offensive
Coordinator in one team-season produce the hierarchical edge HC→OC. -/
theorem hier_edge_iff_witness :
    (hcRow, ocRow) ∈ hierPairs (groupOf (filterAllowed exRowsOk) ("KC", 2020)) :=
  ((hier_edge_iff exRowsOk ("KC", 2020) hcRow ocRow (by decide) (by decide)
      (by decide) (by decide) (by decide)).1).mpr
    ⟨⟨1, 2, by decide, by decide, by decide⟩, Or.inl (by decide)⟩

/-- Claim C2: for a team-season group with n eligible rows, the
co-staff loop emits exactly n² ordered pairs — every ordered pair of
group rows, unconditionally, including every self-pair. -/
theorem costaff_square (rows : List RosterRow) (k : String × Int) :
    (costaffPairs (groupOf (filterAllowed rows) k)).length =
        (groupOf (filterAllowed rows) k).length ^ 2 ∧
    (∀ p : RosterRow × RosterRow,
        p ∈ costaffPairs (groupOf (filterAllowed rows) k) ↔
          p.1 ∈ groupOf (filterAllowed rows) k ∧
            p.2 ∈ groupOf (filterAllowed rows) k) ∧
    (∀ r ∈ groupOf (filterAllowed rows) k,
        (r, r) ∈ costaffPairs (groupOf (filterAllowed rows) k)) := by
  refine ⟨?_, fun p => mem_costaffPairs, fun r hr => mem_costaffPairs.mpr ⟨hr, hr⟩⟩
  rw [length_costaffPairs, pow_two]

/-- Witness for `costaff_square`: the Head Coach row is paired with
itself in its team-season group. -/
theorem costaff_square_witness :
    (hcRow, hcRow) ∈ costaffPairs (groupOf (filterAllowed exRows) ("KC", 2020)) :=
  (costaff_square exRows ("KC", 2020)).2.2 hcRow (by decide)

/-- Claim C6 counterexample: a Coordinator row with a missing
`side_of_ball` is NOT treated as absent from its team-season group.
With a Head Coach and that malformed row in one group, the code emits
the hierarchical edge HC→Coordinator and 4 (= 2²) co-staff pairs,
whereas dropping the malformed row would emit no hierarchical edge and
a single co-staff pair. -/
theorem malformed_row_participates :
    badRow.side_of_ball = none ∧
    badRow ∈ exRows ∧
    (hcRow, badRow) ∈ hierPairs (groupOf (filterAllowed exRows) ("KC", 2020)) ∧
    (costaffPairs (groupOf (filterAllowed exRows) ("KC", 2020))).length = 4 ∧
    hierPairs (groupOf (filterAllowed
        (exRows.filter fun r => r.side_of_ball.isSome)) ("KC", 2020)) = [] ∧
    (costaffPairs (groupOf (filterAllowed
        (exRows.filter fun r => r.side_of_ball.isSome)) ("KC", 2020))).length
      = 1 := by decide

/-- Claim C6 (amended): a record whose `role_category` is missing (or
not in the allowed set) is excluded from both hierarchical and
co-staff pairing; records missing `side_of_ball` or identity fields
are not excluded — any two rows of a group are co-staff paired
unconditionally. -/
theorem missing_role_excluded (rows : List RosterRow) (k : String × Int)
    (src tgt : RosterRow) :
    ((src, tgt) ∈ hierPairs (groupOf (filterAllowed rows) k) ∨
        (src, tgt) ∈ costaffPairs (groupOf (filterAllowed rows) k) →
      (roleAllowed src = true ∧ src.role_category ≠ none) ∧
        (roleAllowed tgt = true ∧ tgt.role_category ≠ none)) ∧
    (src ∈ groupOf (filterAllowed rows) k →
      tgt ∈ groupOf (filterAllowed rows) k →
      (src, tgt) ∈ costaffPairs (groupOf (filterAllowed rows) k)) := by
  have hra : ∀ r : RosterRow, r ∈ groupOf (filterAllowed rows) k →
      roleAllowed r = true ∧ r.role_category ≠ none := by
    intro r hr
    have h := (mem_filterAllowed.mp (mem_groupOf.mp hr).1).2
    refine ⟨h, ?_⟩
    intro hnone
    unfold roleAllowed at h
    rw [hnone] at h
    simp at h
  constructor
  · intro hor
    cases hor with
    | inl h =>
      obtain ⟨h1, h2, -⟩ := mem_hierPairs.mp h
      exact ⟨hra src h1, hra tgt h2⟩
    | inr h =>
      obtain ⟨h1, h2⟩ := mem_costaffPairs.mp h
      exact ⟨hra src h1, hra tgt h2⟩
  · intro h1 h2
    exact mem_costaffPairs.mpr ⟨h1, h2⟩

/-- Witness for `missing_role_excluded`: the sideless Coordinator row
is co-staff paired with itself. -/
theorem missing_role_excluded_witness :
    (badRow, badRow) ∈ costaffPairs (groupOf (filterAllowed exRows) ("KC", 2020)) :=
  (missing_role_excluded exRows ("KC", 2020) badRow badRow).2
    (by decide) (by decide)

/-- Claim C7: when the focal node id is not present in the graph, the
engine does not fail: it degrades to the entire graph node set and
raises the warning flag. -/
theorem focal_missing_fallback (es : List EdgeRow) (focal depth : Nat)
    (hf : focal ∉ graphNodes es) :
    (resolveNodes es (Mode.individual focal depth)).1 = graphNodes es ∧
    (resolveNodes es (Mode.individual focal depth)).2 = true := by
  simp [resolveNodes, hf]

/-- Witness for `focal_missing_fallback`: node 99 is absent from the
example graph and the fallback returns every graph node. -/
theorem focal_missing_fallback_witness :
    (resolveNodes exGraph1 (Mode.individual 99 1)).1 = graphNodes exGraph1 :=
  (focal_missing_fallback exGraph1 99 1 (by decide)).1

/-- Claim C3: in both selection modes the facet pipeline first keeps
the edges with both endpoints in the resolved node set, then applies
the year and team facets by intersection, and finally recomputes the
visible node set as exactly the endpoints of the filtered edges, so a
selected node all of whose incident edges were filtered out disappears
from the visible node set. -/
theorem facet_filter_order (es : List EdgeRow) (m : Mode)
    (selYears : List Int) (selTeams : List String) :
    (∀ e : EdgeRow,
        e ∈ filteredEdges es (resolveNodes es m).1 selYears selTeams ↔
          e ∈ es ∧ e.src ∈ (resolveNodes es m).1 ∧
            e.tgt ∈ (resolveNodes es m).1 ∧
            (selYears ≠ [] → e.year ∈ selYears) ∧
            (selTeams ≠ [] → e.team ∈ selTeams)) ∧
    (∀ v : Nat,
        v ∈ (resolve_view es m selYears selTeams).1 ↔
          ∃ e ∈ filteredEdges es (resolveNodes es m).1 selYears selTeams,
            e.src = v ∨ e.tgt = v) ∧
    (∀ v ∈ (resolveNodes es m).1,
        (∀ e ∈ filteredEdges es (resolveNodes es m).1 selYears selTeams,
            e.src ≠ v ∧ e.tgt ≠ v) →
          v ∉ (resolve_view es m selYears selTeams).1) := by
  refine ⟨fun e => mem_filteredEdges, fun v => ?_, fun v hv hnone hmem => ?_⟩
  · rw [resolve_view_fst, nodesInEdges_eq_graphNodes]
    exact mem_graphNodes
  · rw [resolve_view_fst, nodesInEdges_eq_graphNodes] at hmem
    obtain ⟨e, he, hor⟩ := mem_graphNodes.mp hmem
    obtain ⟨hns, hnt⟩ := hnone e he
    cases hor with
    | inl h => exact hns h
    | inr h => exact hnt h

/-- Witness for `facet_filter_order`: in the example view around focal
node 1, the neighbour-to-neighbour edge 2→3 survives the year facet
{2001}. -/
theorem facet_filter_order_witness :
    (⟨2, 3, 2001, "KC"⟩ : EdgeRow) ∈
      filteredEdges exGraph9 (resolveNodes exGraph9 (Mode.individual 1 1)).1
        [2001] [] :=
  ((facet_filter_order exGraph9 (Mode.individual 1 1) [2001] []).1
      ⟨2, 3, 2001, "KC"⟩).mpr (by decide)

/-- Claim C4: with the focal node present in the graph, depth 1
resolves to the focal node plus its successors and predecessors, and
depth 2 additionally adds the successors and predecessors of every
first-hop node (both hops undirected); on the synthetic graph A→B, C→A
with focal A, depth 1 yields {A, B, C}, and with B→D added, depth 2
yields {A, B, C, D}. -/
theorem depth_expansion (es : List EdgeRow) (focal : Nat)
    (hf : focal ∈ graphNodes es) :
    (resolveNodes es (Mode.individual focal 1)).1 =
        {focal} ∪ successors es focal ∪ predecessors es focal ∧
    (resolveNodes es (Mode.individual focal 2)).1 =
        ({focal} ∪ (successors es focal ∪ predecessors es focal)) ∪
          (successors es focal ∪ predecessors es focal).biUnion
            (fun v => successors es v ∪ predecessors es v) ∧
    (∀ v, v ∈ connectedNodes es focal 1 ↔
        v = focal ∨ (∃ e ∈ es, e.src = focal ∧ e.tgt = v) ∨
          (∃ e ∈ es, e.tgt = focal ∧ e.src = v)) ∧
    (∀ v, v ∈ connectedNodes es focal 2 ↔
        v = focal ∨
          v ∈ successors es focal ∪ predecessors es focal ∨
          (∃ u ∈ successors es focal ∪ predecessors es focal,
            (∃ e ∈ es, e.src = u ∧ e.tgt = v) ∨
              (∃ e ∈ es, e.tgt = u ∧ e.src = v))) ∧
    resolveNodes exGraph1 (Mode.individual 1 1) = ({1, 2, 3}, false) ∧
    resolveNodes exGraph2 (Mode.individual 1 2) = ({1, 2, 3, 4}, false) := by
  have hd1 : connectedNodes es focal 1 =
      {focal} ∪ successors es focal ∪ predecessors es focal := by
    rw [connectedNodes, if_pos rfl]
  have hd2 : connectedNodes es focal 2 =
      ({focal} ∪ (successors es focal ∪ predecessors es focal)) ∪
        (successors es focal ∪ predecessors es focal).biUnion
          (fun v => successors es v ∪ predecessors es v) := by
    rw [connectedNodes, if_neg (by omega)]
  refine ⟨?_, ?_, ?_, ?_, by decide, by decide⟩
  · rw [show (resolveNodes es (Mode.individual focal 1)).1
        = connectedNodes es focal 1 by simp [resolveNodes, hf]]
    exact hd1
  · rw [show (resolveNodes es (Mode.individual focal 2)).1
        = connectedNodes es focal 2 by simp [resolveNodes, hf]]
    exact hd2
  · intro v
    rw [hd1]
    simp only [Finset.mem_union, Finset.mem_singleton, mem_successors,
      mem_predecessors, or_assoc]
  · intro v
    rw [hd2]
    simp only [Finset.mem_union, Finset.mem_singleton, Finset.mem_biUnion,
      mem_successors, mem_predecessors, or_assoc]

/-- Witness for `depth_expansion`: the depth-1 formula instantiated on
the synthetic graph A→B, C→A with focal A. -/
theorem depth_expansion_witness :
    (resolveNodes exGraph1 (Mode.individual 1 1)).1 =
      {1} ∪ successors exGraph1 1 ∪ predecessors exGraph1 1 :=
  (depth_expansion exGraph1 1 (by decide)).1

/-- Claim C5: community mode starts from exactly the member set; the
`include_external` flag extends it by exactly one undirected hop (the
successors and predecessors of each member) and nothing further — the
mode carries no depth parameter, so no depth-2 expansion exists (on
the path 1→2→3 with community {1}, the extended view is {1, 2}). -/
theorem community_mode_nodes (es : List EdgeRow) (members : List Nat)
    (ext : Bool) (hm : members ≠ []) :
    (resolveNodes es (Mode.community members false)).1 = members.toFinset ∧
    (∀ v, v ∈ (resolveNodes es (Mode.community members ext)).1 ↔
        v ∈ members ∨ (ext = true ∧ ∃ u ∈ members,
          (∃ e ∈ es, e.src = u ∧ e.tgt = v) ∨
            (∃ e ∈ es, e.tgt = u ∧ e.src = v))) ∧
    (resolveNodes [(⟨1, 2, 2000, "KC"⟩ : EdgeRow), ⟨2, 3, 2001, "KC"⟩]
        (Mode.community [1] true)).1 = {1, 2} := by
  have hpoint : ∀ u v : Nat,
      (v ∈ if u ∈ graphNodes es
            then successors es u ∪ predecessors es u else ∅) ↔
        ((∃ e ∈ es, e.src = u ∧ e.tgt = v) ∨
          (∃ e ∈ es, e.tgt = u ∧ e.src = v)) := by
    intro u v
    by_cases hg : u ∈ graphNodes es
    · rw [if_pos hg]
      simp only [Finset.mem_union, mem_successors, mem_predecessors]
    · rw [if_neg hg]
      simp only [Finset.not_mem_empty, false_iff]
      rintro (⟨e, he, h1, -⟩ | ⟨e, he, h1, -⟩)
      · exact hg (mem_graphNodes.mpr ⟨e, he, Or.inl h1⟩)
      · exact hg (mem_graphNodes.mpr ⟨e, he, Or.inr h1⟩)
  refine ⟨?_, ?_, by decide⟩
  · simp [resolveNodes, hm, communityView]
  · intro v
    cases ext with
    | false => simp [resolveNodes, hm, communityView]
    | true =>
      simp only [resolveNodes, if_pos hm, communityView, if_true]
      rw [Finset.mem_union, Finset.mem_biUnion]
      simp only [List.mem_toFinset, hpoint, true_and]

/-- Witness for `community_mode_nodes`: community {1} without external
inclusion resolves to exactly the member set. -/
theorem community_mode_nodes_witness :
    (resolveNodes exGraph1 (Mode.community [1] false)).1 =
      ([1] : List Nat).toFinset :=
  (community_mode_nodes exGraph1 [1] false (by decide)).1

/-- Claim C8 counterexample: an edge table carrying BOTH accepted
endpoint pairs (`from`/`to` and `source`/`target`) and a node table
carrying both `coach_id` and `id` do NOT make the load fail — the
negotiation silently prefers `from`/`to` and `coach_id`, contradicting
the stated requirement that exactly one accepted pair be present. -/
theorem schema_both_pairs_accepted :
    (["from", "to", "source", "target"].contains "from" = true ∧
      ["from", "to", "source", "target"].contains "to" = true ∧
      ["from", "to", "source", "target"].contains "source" = true ∧
      ["from", "to", "source", "target"].contains "target" = true) ∧
    detectEdgeCols ["from", "to", "source", "target"] = some ("from", "to") ∧
    (["coach_id", "id"].contains "coach_id" = true ∧
      ["coach_id", "id"].contains "id" = true) ∧
    detectNodeCols ["coach_id", "id"] = some ("coach_id", "coach_id") ∧
    loadStore ["from", "to", "source", "target"] ["coach_id", "id"] =
      some (("from", "to"), ("coach_id", "coach_id")) := by decide

/-- Claim C8 (amended): the load fails, with no partial result, iff no
accepted pair is present (neither `from`/`to` nor `source`/`target` on
the edge side, respectively neither `coach_id` nor `id` on the node
side); when both alternatives are present, `from`/`to` and `coach_id`
take precedence. -/
theorem schema_column_rules (edgeCols nodeCols : List String) :
    (detectEdgeCols edgeCols = none ↔
        ¬((edgeCols.contains "from" = true ∧ edgeCols.contains "to" = true) ∨
          (edgeCols.contains "source" = true ∧
            edgeCols.contains "target" = true))) ∧
    (edgeCols.contains "from" = true → edgeCols.contains "to" = true →
        detectEdgeCols edgeCols = some ("from", "to")) ∧
    (detectNodeCols nodeCols = none ↔
        ¬(nodeCols.contains "coach_id" = true ∨
          nodeCols.contains "id" = true)) ∧
    (nodeCols.contains "coach_id" = true →
        detectNodeCols nodeCols =
          some ("coach_id",
            if nodeCols.contains "coach" then "coach" else "coach_id")) ∧
    (loadStore edgeCols nodeCols = none ↔
        (detectEdgeCols edgeCols = none ∨ detectNodeCols nodeCols = none)) := by
  have hedge : (detectEdgeCols edgeCols = none ↔
      ¬((edgeCols.contains "from" = true ∧ edgeCols.contains "to" = true) ∨
        (edgeCols.contains "source" = true ∧
          edgeCols.contains "target" = true))) ∧
      (edgeCols.contains "from" = true → edgeCols.contains "to" = true →
        detectEdgeCols edgeCols = some ("from", "to")) := by
    cases h1 : edgeCols.contains "from" <;>
      cases h2 : edgeCols.contains "to" <;>
      cases h3 : edgeCols.contains "source" <;>
      cases h4 : edgeCols.contains "target" <;>
      simp_all [detectEdgeCols]
  have hnode : (detectNodeCols nodeCols = none ↔
      ¬(nodeCols.contains "coach_id" = true ∨
        nodeCols.contains "id" = true)) ∧
      (nodeCols.contains "coach_id" = true →
        detectNodeCols nodeCols =
          some ("coach_id",
            if nodeCols.contains "coach" then "coach" else "coach_id")) := by
    cases h1 : nodeCols.contains "coach_id" <;>
      cases h2 : nodeCols.contains "id" <;>
      simp_all [detectNodeCols]
  have hload : loadStore edgeCols nodeCols = none ↔
      (detectEdgeCols edgeCols = none ∨ detectNodeCols nodeCols = none) := by
    unfold loadStore
    cases detectEdgeCols edgeCols <;> cases detectNodeCols nodeCols <;> simp
  exact ⟨hedge.1, hedge.2, hnode.1, hnode.2, hload⟩

/-- Witness for `schema_column_rules`: the plain `from`/`to` table is
accepted. -/
theorem schema_column_rules_witness :
    detectEdgeCols ["from", "to"] = some ("from", "to") :=
  (schema_column_rules ["from", "to"] ["id"]).2.1 (by decide) (by decide)

/-- Claim C9 counterexample: in the view around focal node 1 of
`exGraph9`, the year facet {2001} excludes every edge touching the
focal node, yet the recomputed node set is {2, 3}, not the empty set —
the neighbour-to-neighbour edge 2→3 of year 2001 survives. -/
theorem year_facet_not_empty :
    (∀ e ∈ exGraph9, e.src = 1 ∨ e.tgt = 1 → e.year ∉ ([2001] : List Int)) ∧
    1 ∈ graphNodes exGraph9 ∧
    (resolve_view exGraph9 (Mode.individual 1 1) [2001] []).1 ≠
      (∅ : Finset Nat) ∧
    (resolve_view exGraph9 (Mode.individual 1 1) [2001] []).1 =
      ({2, 3} : Finset Nat) := by decide

/-- Claim C9 (amended): when a non-empty year facet excludes every
edge touching the focal node, the recomputed node set no longer
contains the focal node (the original selection disappears); it equals
the empty set when the facet excludes every edge of the view (every
edge with both endpoints in the resolved node set), in particular
whenever every view edge touches the focal node. -/
theorem year_facet_excludes_focal (es : List EdgeRow) (focal depth : Nat)
    (selYears : List Int) (selTeams : List String)
    (hys : selYears ≠ [])
    (h : ∀ e ∈ es, e.src = focal ∨ e.tgt = focal → e.year ∉ selYears) :
    focal ∉ (resolve_view es (Mode.individual focal depth)
        selYears selTeams).1 ∧
    ((∀ e ∈ filterByNodes es
          (resolveNodes es (Mode.individual focal depth)).1,
        e.year ∉ selYears) →
      (resolve_view es (Mode.individual focal depth) selYears selTeams).1
        = ∅) ∧
    ((∀ e ∈ filterByNodes es
          (resolveNodes es (Mode.individual focal depth)).1,
        e.src = focal ∨ e.tgt = focal) →
      (resolve_view es (Mode.individual focal depth) selYears selTeams).1
        = ∅) := by
  have hempty : (∀ e ∈ filterByNodes es
        (resolveNodes es (Mode.individual focal depth)).1,
      e.year ∉ selYears) →
      (resolve_view es (Mode.individual focal depth) selYears selTeams).1
        = ∅ := by
    intro hall
    rw [resolve_view_fst, nodesInEdges_eq_graphNodes]
    rw [Finset.eq_empty_iff_forall_not_mem]
    intro v hv
    obtain ⟨e, he, -⟩ := mem_graphNodes.mp hv
    obtain ⟨hes, hsrc, htgt, hyr, -⟩ := mem_filteredEdges.mp he
    exact hall e (mem_filterByNodes.mpr ⟨hes, hsrc, htgt⟩) (hyr hys)
  refine ⟨?_, hempty, ?_⟩
  · intro hmem
    rw [resolve_view_fst, nodesInEdges_eq_graphNodes] at hmem
    obtain ⟨e, he, hor⟩ := mem_graphNodes.mp hmem
    obtain ⟨hes, -, -, hyr, -⟩ := mem_filteredEdges.mp he
    exact h e hes hor (hyr hys)
  · intro htouch
    exact hempty fun e hef =>
      h e (mem_filterByNodes.mp hef).1 (htouch e hef)

/-- Witness for `year_facet_excludes_focal`: focal node 1 disappears
from the example view under the year facet {2001}. -/
theorem year_facet_excludes_focal_witness :
    1 ∉ (resolve_view exGraph9 (Mode.individual 1 1) [2001] []).1 :=
  (year_facet_excludes_focal exGraph9 1 1 [2001] [] (by decide) (by decide)).1

/-- Claim C10: an empty year or team facet selection applies no
restriction at all — the guard `if selected_years:` skips the filter —
while a non-empty selection restricts the edges to those whose year
(team) is in the selection. -/
theorem empty_facet_passthrough (es : List EdgeRow) (ns : Finset Nat)
    (m : Mode) (selYears : List Int) (selTeams : List String) :
    filterByYears es [] = es ∧
    filterByTeams es [] = es ∧
    filteredEdges es ns [] [] = filterByNodes es ns ∧
    (resolve_view es m [] []).2.1 = filterByNodes es (resolveNodes es m).1 ∧
    (selYears ≠ [] →
      filterByYears es selYears =
        es.filter fun e => selYears.contains e.year) ∧
    (selTeams ≠ [] →
      filterByTeams es selTeams =
        es.filter fun e => selTeams.contains e.team) := by
  refine ⟨rfl, rfl, rfl, rfl, fun hy => ?_, fun ht => ?_⟩
  · rw [filterByYears, if_neg (by simpa [List.isEmpty_iff] using hy)]
  · rw [filterByTeams, if_neg (by simpa [List.isEmpty_iff] using ht)]

/-- Witness for `empty_facet_passthrough`: the non-empty year facet
{2001} restricts the example edges by membership. -/
theorem empty_facet_passthrough_witness :
    filterByYears exGraph9 [2001] =
      exGraph9.filter fun e => ([2001] : List Int).contains e.year :=
  (empty_facet_passthrough exGraph9 ∅ (Mode.individual 1 1)
      [2001] []).2.2.2.2.1 (by decide)
